import Mathlib

/-!
Verification of the spawn-point cache in `monocle/spawns.py` (class
`BaseSpawns` and its two variants `Spawns` and `MoreSpawns`).

Python dictionaries are embedded as association lists with in-place
replacement on key collision (preserving insertion order, as `dict` does);
Python sets are embedded as duplicate-free lists; timestamps and
despawn-seconds are natural numbers; coordinates are pairs of integers
(opaque keys for every claim considered here); fingerprints are numbers.
External collaborators (`monocle.utils`, the database, the elevation
service, randomness) are passed in explicitly as data or function
parameters, following the interface the spec gives them.
-/

set_option maxHeartbeats 1000000

/-- A geographic point `(lat, lon)`; the claims treat coordinates as opaque
dictionary keys, so an integer pair suffices. -/
abbrev Point := Int × Int

/-- An opaque spawn identifier assigned by the store. -/
abbrev SpawnId := Nat

/-- Python `dict` assignment `d[k] = v`: replace in place if the key is
present (keeping its position), otherwise append at the end. -/
def insertA {α β : Type} [DecidableEq α] : List (α × β) → α → β → List (α × β)
  | [], k, v => [(k, v)]
  | (k', v') :: rest, k, v =>
    if k' = k then (k, v) :: rest else (k', v') :: insertA rest k v

/-- Python `dict` lookup `d[k]` / `k in d`. -/
def lookupA {α β : Type} [DecidableEq α] : List (α × β) → α → Option β
  | [], _ => none
  | (k', v') :: rest, k => if k' = k then some v' else lookupA rest k

/-- The keys of an embedded dictionary. -/
def keysA {α β : Type} (l : List (α × β)) : List α := l.map Prod.fst

/-- Python `set.add`: insert if absent. -/
def insertSet {α : Type} [DecidableEq α] (l : List α) (a : α) : List α :=
  if a ∈ l then l else a :: l

/-- Python `set.discard`: remove the element if present. -/
def discardSet {α : Type} [DecidableEq α] (l : List α) (a : α) : List α :=
  l.filter (fun x => x ≠ a)

/-- Python `next(reversed(od))` on an ordered dict: the most recently
appended entry, `none` when empty (`StopIteration`). -/
def lastEntry {α : Type} : List α → Option α
  | [] => none
  | [a] => some a
  | _ :: b :: t => lastEntry (b :: t)

/-- The mutable state of `BaseSpawns.__init__` (minus the logger, which
carries no data): `known`, `despawn_times`, `unknown`, `altitudes`,
`class_version` and `db_hash`.  Values of `known` are `Option` pairs
because `MoreSpawns.add_known` stores the placeholder `None`. -/
structure BaseState where
  known : List (Point × Option (SpawnId × Nat))
  despawn_times : List (SpawnId × Nat)
  unknown : List Point
  altitudes : List (Point × Int)
  class_version : Nat
  db_hash : Nat
deriving DecidableEq, Repr

/-- `BaseSpawns.__init__`: everything empty, `class_version = 2`,
`db_hash` the digest of the configured store identity. -/
def initBase (dbh : Nat) : BaseState :=
  { known := [], despawn_times := [], unknown := [], altitudes := [],
    class_version := 2, db_hash := dbh }

/-- `MoreSpawns` adds the provisional `cell_points` set. -/
structure MoreState extends BaseState where
  cell_points : List Point
deriving DecidableEq, Repr

/-- `MoreSpawns.__init__`. -/
def initMore (dbh : Nat) : MoreState :=
  { toBaseState := initBase dbh, cell_points := [] }

/-- Modelled from the spec: `get_current_hour` of `monocle.utils` is not
under `src/`; the spec defines it as the start of the hour containing the
given observation timestamp. -/
def currentHour (seen : Nat) : Nat := seen - seen % 3600

/-- `BaseSpawns.get_despawn_time(spawn_id, seen)`: add the stored
despawn-second to the start of `seen`'s hour, bump by a full cycle when
`seen` is already past that instant; `None` (`KeyError`) when the
identifier is absent. -/
def get_despawn_time (st : BaseState) (spawn_id : SpawnId) (seen : Nat) : Option Nat :=
  let hour := currentHour seen
  match lookupA st.despawn_times spawn_id with
  | some d =>
    let despawn_time := d + hour
    some (if seen > despawn_time then despawn_time + 3600 else despawn_time)
  | none => none

/-- Restatement of the spec's despawn-instant rule in the spec's own words
(start of the hour as `3600 * (seen / 3600)`, then the wrap rule), used to
compare `get_despawn_time` against the specification. -/
def despawn_instant_spec (despawns : List (SpawnId × Nat)) (spawn_id : SpawnId)
    (seen : Nat) : Option Nat :=
  match lookupA despawns spawn_id with
  | some d =>
    let t := 3600 * (seen / 3600) + d
    some (if seen > t then t + 3600 else t)
  | none => none

/-- C3: `get_despawn_time(spawn_id, seen)` returns exactly the spec's
despawn instant — the stored despawn-second added to the start of the hour
containing `seen`, plus a further 3600 s when `seen` is past that instant —
and it returns `none` if and only if `spawn_id` is absent from
`despawn_times`. -/
theorem C3_get_despawn_time_spec (st : BaseState) (spawn_id : SpawnId) (seen : Nat) :
    get_despawn_time st spawn_id seen = despawn_instant_spec st.despawn_times spawn_id seen ∧
    (get_despawn_time st spawn_id seen = none ↔ lookupA st.despawn_times spawn_id = none) := by
  constructor
  · unfold get_despawn_time despawn_instant_spec currentHour
    cases h : lookupA st.despawn_times spawn_id with
    | none => rfl
    | some d =>
      have hh : seen - seen % 3600 = 3600 * (seen / 3600) := by omega
      simp only [hh, Nat.add_comm d]
  · unfold get_despawn_time
    cases h : lookupA st.despawn_times spawn_id <;> simp

/-- C10: whenever `spawn_id` has a stored despawn-second `d < 3600`, the
instant returned by `get_despawn_time` lies in `[seen, seen + 3600)`:
never in the past, and less than one full cycle ahead. -/
theorem C10_despawn_within_cycle (st : BaseState) (spawn_id : SpawnId) (seen d : Nat)
    (hd : lookupA st.despawn_times spawn_id = some d) (hlt : d < 3600) :
    ∃ t, get_despawn_time st spawn_id seen = some t ∧ seen ≤ t ∧ t < seen + 3600 := by
  unfold get_despawn_time currentHour
  rw [hd]
  refine ⟨_, rfl, ?_, ?_⟩ <;> split <;> omega

/-- A concrete state exercising `get_despawn_time`: one stored identifier. -/
def stDespawn : BaseState :=
  { initBase 0 with despawn_times := [(7, 100)] }

theorem C10_despawn_within_cycle_witness :
    lookupA stDespawn.despawn_times 7 = some 100 ∧ (100 : Nat) < 3600 ∧
    ∃ t, get_despawn_time stDespawn 7 5000 = some t ∧ 5000 ≤ t ∧ t < 5000 + 3600 :=
  ⟨by decide, by decide, C10_despawn_within_cycle stDespawn 7 5000 100 (by decide) (by decide)⟩

/-- Outcome of the external elevation fetch (`monocle.utils.get_altitude`),
per the spec's elevation-service interface: success, empty result
(`IndexError`), malformed result (`KeyError`), or any other exception. -/
inductive FetchResult where
  | ok (alt : Int)
  | errEmpty
  | errMalformed
  | errOther
deriving DecidableEq, Repr

/-- `BaseSpawns.get_altitude(point, randomize)`.  `roundFn` stands for
`round_coords` at the configured precision (modelled from the spec:
`monocle.utils` is not under `src/`), `fetch` for the external elevation
service, `randAlt` for the value `random_altitude()` would produce, and
`uniformSample` for the jitter sample `uniform(alt - r, alt + r)`.
Returns the produced altitude together with the (possibly updated)
altitude cache. -/
def get_altitude (st : BaseState) (roundFn : Point → Point) (fetch : Point → FetchResult)
    (randAlt uniformSample : Int) (randomize : Nat) (point : Point) :
    Int × BaseState :=
  let p := roundFn point
  match lookupA st.altitudes p with
  | some alt => (if randomize ≠ 0 then uniformSample else alt, st)
  | none =>
    match fetch p with
    | .ok alt => (alt, { st with altitudes := insertA st.altitudes p alt })
    | .errEmpty => (randAlt, st)
    | .errMalformed => (randAlt, st)
    | .errOther => (randAlt, st)

/-- C6: on an altitude-cache miss, a successful fetch is stored and
returned, while each of the three failure kinds yields the random fallback
value and leaves the cache (and the whole state) unchanged, so a later call
on the same point re-attempts a real fetch; the function is total, so no
error reaches the caller. -/
theorem C6_get_altitude_fallback (st : BaseState) (roundFn : Point → Point)
    (fetch : Point → FetchResult) (randAlt uniformSample : Int) (randomize : Nat)
    (point : Point) (hmiss : lookupA st.altitudes (roundFn point) = none) :
    (∀ alt, fetch (roundFn point) = .ok alt →
      get_altitude st roundFn fetch randAlt uniformSample randomize point =
        (alt, { st with altitudes := insertA st.altitudes (roundFn point) alt })) ∧
    (fetch (roundFn point) = .errEmpty ∨ fetch (roundFn point) = .errMalformed ∨
        fetch (roundFn point) = .errOther →
      get_altitude st roundFn fetch randAlt uniformSample randomize point =
        (randAlt, st)) := by
  constructor
  · intro alt hok
    simp only [get_altitude, hmiss, hok]
  · rintro (h | h | h) <;> simp only [get_altitude, hmiss, h]

/-- A concrete altitude cache state with one cached coordinate, leaving
`(3, 4)` uncached. -/
def stAlt : BaseState :=
  { initBase 0 with altitudes := [((1, 2), 50)] }

theorem C6_get_altitude_fallback_witness :
    lookupA stAlt.altitudes (id ((3 : Int), (4 : Int))) = none ∧
    get_altitude stAlt id (fun _ => .errMalformed) 777 0 0 (3, 4) = (777, stAlt) :=
  ⟨by decide,
    (C6_get_altitude_fallback stAlt id (fun _ => .errMalformed) 777 0 0 (3, 4)
      (by decide)).2 (Or.inr (Or.inl rfl))⟩

/-- The live configuration consulted by `BaseSpawns.pickle`/`BaseSpawns.unpickle`: the boundary
fingerprint `hash(bounds)`, `conf.LAST_MIGRATION`, `conf.ALT_PRECISION`,
and the result `get_all_altitudes()` would return on a bulk re-seed. -/
structure Config where
  bounds_hash : Int
  last_migration : Nat
  alt_precision : Nat
  bulk_altitudes : List (Point × Int)
deriving DecidableEq, Repr

/-- The persisted snapshot payload written by `BaseSpawns.pickle`: the
mutable state fields plus the compatibility record. -/
structure Snapshot where
  known : List (Point × Option (SpawnId × Nat))
  despawn_times : List (SpawnId × Nat)
  unknown : List Point
  altitudes : List (Point × Int)
  class_version : Nat
  db_hash : Nat
  bounds_hash : Int
  alt_precision : Nat
  last_migration : Nat
deriving DecidableEq, Repr

/-- What `load_pickle('spawns', raise_exception=True)` produced: no file
(`FileNotFoundError`), an obsolete or invalid payload (`TypeError` /
`KeyError`), or a well-formed snapshot. -/
inductive LoadResult where
  | notFound
  | malformed
  | ok (s : Snapshot)
deriving DecidableEq, Repr

/-- `BaseSpawns.pickle()`: copy the state (minus the logger and the derived
`cells_count`) and embed the current compatibility record. -/
def BaseSpawns.pickle (st : BaseState) (cfg : Config) : Snapshot :=
  { known := st.known, despawn_times := st.despawn_times, unknown := st.unknown,
    altitudes := st.altitudes, class_version := st.class_version, db_hash := st.db_hash,
    bounds_hash := cfg.bounds_hash, alt_precision := cfg.alt_precision,
    last_migration := cfg.last_migration }

/-- `BaseSpawns.unpickle()`: accept the snapshot only when structure
version, store fingerprint, boundary fingerprint and last-migration marker
all match; on acceptance restore every persisted field, re-seeding the
altitude cache when the stored precision differs from the configured one.
Returns the boolean result together with the resulting state. -/
def BaseSpawns.unpickle (st : BaseState) (cfg : Config) (lr : LoadResult) : Bool × BaseState :=
  match lr with
  | .notFound => (false, st)
  | .malformed => (false, st)
  | .ok s =>
    if s.class_version = st.class_version ∧ s.db_hash = st.db_hash ∧
        s.bounds_hash = cfg.bounds_hash ∧ s.last_migration = cfg.last_migration then
      if s.alt_precision ≠ cfg.alt_precision then
        (true, { known := s.known, despawn_times := s.despawn_times, unknown := s.unknown,
                 altitudes := cfg.bulk_altitudes, class_version := s.class_version,
                 db_hash := s.db_hash })
      else
        (true, { known := s.known, despawn_times := s.despawn_times, unknown := s.unknown,
                 altitudes := s.altitudes, class_version := s.class_version,
                 db_hash := s.db_hash })
    else
      (false, st)

/-- The four-field compatibility test `BaseSpawns.unpickle` actually performs (the
`all((...))` tuple in the source). -/
def fourMatch (s : Snapshot) (st : BaseState) (cfg : Config) : Bool :=
  decide (s.class_version = st.class_version ∧ s.db_hash = st.db_hash ∧
    s.bounds_hash = cfg.bounds_hash ∧ s.last_migration = cfg.last_migration)

/-- C7: persisting and then restoring under the same configuration accepts
the snapshot and reproduces the state exactly — same known mapping, same
unknown set, same `despawn_times`, same altitudes. -/
theorem C7_pickle_unpickle_roundtrip (st : BaseState) (cfg : Config) :
    BaseSpawns.unpickle st cfg (.ok (BaseSpawns.pickle st cfg)) = (true, st) := by
  cases st
  simp [BaseSpawns.unpickle, BaseSpawns.pickle]

/-- A live state used to exercise `BaseSpawns.unpickle` on concrete snapshots. -/
def stSnap : BaseState :=
  { known := [((1, 2), some (1, 100))], despawn_times := [(1, 100)],
    unknown := [(9, 9)], altitudes := [((1, 2), 5)],
    class_version := 2, db_hash := 7 }

/-- A live configuration for the snapshot claims. -/
def cfgSnap : Config :=
  { bounds_hash := 3, last_migration := 5, alt_precision := 4,
    bulk_altitudes := [((0, 0), 11)] }

/-- A snapshot agreeing with `stSnap`/`cfgSnap` on the four checked fields
but carrying a different altitude precision. -/
def snapAltMismatch : Snapshot :=
  { known := [((3, 4), some (2, 2000))], despawn_times := [(2, 2000)],
    unknown := [], altitudes := [((3, 4), 8)],
    class_version := 2, db_hash := 7, bounds_hash := 3,
    alt_precision := 9, last_migration := 5 }

/-- C4 counterexample: the claim says any mismatch in the five-field
compatibility record — altitude precision included — makes `BaseSpawns.unpickle`
return `false`; but on a snapshot whose only mismatch is the altitude
precision, `BaseSpawns.unpickle` returns `true`. -/
theorem C4_alt_precision_still_accepts :
    snapAltMismatch.alt_precision ≠ cfgSnap.alt_precision ∧
    (BaseSpawns.unpickle stSnap cfgSnap (.ok snapAltMismatch)).1 = true := by
  constructor
  · decide
  · rfl

/-- C4 amended: `BaseSpawns.unpickle` returns `true` exactly when the snapshot loads
and its structure version, store fingerprint, boundary fingerprint and
last-migration marker match the live configuration; a missing or malformed
snapshot, or a mismatch among those four fields, returns `false`.  The
altitude-precision field is not part of the acceptance test. -/
theorem C4_unpickle_acceptance (st : BaseState) (cfg : Config) (s : Snapshot) :
    (BaseSpawns.unpickle st cfg .notFound).1 = false ∧
    (BaseSpawns.unpickle st cfg .malformed).1 = false ∧
    (BaseSpawns.unpickle st cfg (.ok s)).1 = fourMatch s st cfg := by
  refine ⟨rfl, rfl, ?_⟩
  simp only [BaseSpawns.unpickle, fourMatch]
  by_cases h : s.class_version = st.class_version ∧ s.db_hash = st.db_hash ∧
      s.bounds_hash = cfg.bounds_hash ∧ s.last_migration = cfg.last_migration
  · rw [if_pos h, decide_eq_true h]
    split <;> rfl
  · rw [if_neg h, decide_eq_false h]

/-- C9: a snapshot matching the four checked fields but not the configured
altitude precision is still accepted — `BaseSpawns.unpickle` returns `true`, restores
the persisted known/unknown/`despawn_times` — while the restored altitude
cache is discarded in favour of a full bulk re-seed. -/
theorem C9_alt_precision_reseed (st : BaseState) (cfg : Config) (s : Snapshot)
    (h1 : s.class_version = st.class_version) (h2 : s.db_hash = st.db_hash)
    (h3 : s.bounds_hash = cfg.bounds_hash) (h4 : s.last_migration = cfg.last_migration)
    (h5 : s.alt_precision ≠ cfg.alt_precision) :
    BaseSpawns.unpickle st cfg (.ok s) =
      (true, { known := s.known, despawn_times := s.despawn_times, unknown := s.unknown,
               altitudes := cfg.bulk_altitudes, class_version := s.class_version,
               db_hash := s.db_hash }) := by
  simp only [BaseSpawns.unpickle]
  rw [if_pos ⟨h1, h2, h3, h4⟩, if_pos h5]

theorem C9_alt_precision_reseed_witness :
    snapAltMismatch.alt_precision ≠ cfgSnap.alt_precision ∧
    BaseSpawns.unpickle stSnap cfgSnap (.ok snapAltMismatch) =
      (true, { known := snapAltMismatch.known,
               despawn_times := snapAltMismatch.despawn_times,
               unknown := snapAltMismatch.unknown,
               altitudes := cfgSnap.bulk_altitudes,
               class_version := snapAltMismatch.class_version,
               db_hash := snapAltMismatch.db_hash }) :=
  ⟨by decide,
    C9_alt_precision_reseed stSnap cfgSnap snapAltMismatch
      (by decide) (by decide) (by decide) (by decide) (by decide)⟩

/-- `Spawns.add_known(spawn_id, despawn_time, point)` (plain variant):
record the identifier's despawn time and drop the point from `unknown`;
the `known` mapping is not touched. -/
def Spawns.add_known (st : BaseState) (spawn_id : SpawnId) (despawn_time : Nat)
    (point : Point) : BaseState :=
  { st with despawn_times := insertA st.despawn_times spawn_id despawn_time,
            unknown := discardSet st.unknown point }

/-- `Spawns.add_unknown(point)` (plain variant). -/
def Spawns.add_unknown (st : BaseState) (point : Point) : BaseState :=
  { st with unknown := insertSet st.unknown point }

/-- `MoreSpawns.add_known(spawn_id, despawn_time, point)`: also inserts the
placeholder `None` under the point in `known` (so `have_point` sees it) and
drops the point from `cell_points`. -/
def MoreSpawns.add_known (st : MoreState) (spawn_id : SpawnId) (despawn_time : Nat)
    (point : Point) : MoreState :=
  { st with despawn_times := insertA st.despawn_times spawn_id despawn_time,
            known := insertA st.known point none,
            unknown := discardSet st.unknown point,
            cell_points := discardSet st.cell_points point }

/-- `MoreSpawns.add_unknown(point)`. -/
def MoreSpawns.add_unknown (st : MoreState) (point : Point) : MoreState :=
  { st with unknown := insertSet st.unknown point,
            cell_points := discardSet st.cell_points point }

/-- One call in a sequence of `add_known`/`add_unknown` invocations. -/
inductive Op where
  | addKnown (spawn_id : SpawnId) (despawn_time : Nat) (point : Point)
  | addUnknown (point : Point)
deriving DecidableEq, Repr

/-- The point an operation was passed. -/
def Op.point : Op → Point
  | .addKnown _ _ p => p
  | .addUnknown p => p

/-- Run one call on the plain variant. -/
def applyPlainOp (st : BaseState) : Op → BaseState
  | .addKnown i t p => Spawns.add_known st i t p
  | .addUnknown p => Spawns.add_unknown st p

/-- Run a call sequence on the plain variant. -/
def applyPlain (ops : List Op) (st : BaseState) : BaseState :=
  ops.foldl applyPlainOp st

/-- Run one call on the extended variant. -/
def applyMoreOp (st : MoreState) : Op → MoreState
  | .addKnown i t p => MoreSpawns.add_known st i t p
  | .addUnknown p => MoreSpawns.add_unknown st p

/-- Run a call sequence on the extended variant. -/
def applyMore (ops : List Op) (st : MoreState) : MoreState :=
  ops.foldl applyMoreOp st

/-- The claim's exclusive-membership property for the plain variant: the
point sits in exactly one of the buckets known / unknown. -/
def ExactlyOnePlain (st : BaseState) (p : Point) : Prop :=
  (p ∈ keysA st.known ∧ p ∉ st.unknown) ∨ (p ∉ keysA st.known ∧ p ∈ st.unknown)

/-- The claim's exclusive-membership property for the extended variant:
exactly one of known / unknown / cell_points. -/
def ExactlyOneMore (st : MoreState) (p : Point) : Prop :=
  (p ∈ keysA st.known ∧ p ∉ st.unknown ∧ p ∉ st.cell_points) ∨
  (p ∉ keysA st.known ∧ p ∈ st.unknown ∧ p ∉ st.cell_points) ∨
  (p ∉ keysA st.known ∧ p ∉ st.unknown ∧ p ∈ st.cell_points)

/-- Membership in at least one extended-variant bucket. -/
def InAnyMore (st : MoreState) (p : Point) : Prop :=
  p ∈ keysA st.known ∨ p ∈ st.unknown ∨ p ∈ st.cell_points

/-- C2 counterexample: in the plain variant a single `add_known` leaves the
point in neither bucket (it never inserts into `known`), and in the
extended variant `add_known` followed by `add_unknown` leaves the point in
both `known` and `unknown` (`add_unknown` never removes from `known`) — so
"exactly one bucket" fails in both variants. -/
theorem C2_exclusivity_counterexample :
    ¬ ExactlyOnePlain (applyPlain [.addKnown 1 100 (5, 6)] (initBase 0)) (5, 6) ∧
    ¬ ExactlyOneMore
        (applyMore [.addKnown 1 100 (5, 6), .addUnknown (5, 6)] (initMore 0)) (5, 6) := by
  unfold ExactlyOnePlain ExactlyOneMore
  exact ⟨by decide, by decide⟩

theorem mem_keysA_insertA_self {α β : Type} [DecidableEq α] (l : List (α × β)) (k : α) (v : β) :
    k ∈ keysA (insertA l k v) := by
  induction l with
  | nil => simp [insertA, keysA]
  | cons hd tl ih =>
    obtain ⟨k', v'⟩ := hd
    by_cases h : k' = k <;> simp only [insertA, h, if_true, if_false, keysA, List.map_cons] <;>
      simp [keysA] at ih ⊢
    · exact Or.inr ih

theorem mem_keysA_insertA_of_mem {α β : Type} [DecidableEq α] {l : List (α × β)} {p : α}
    (k : α) (v : β) (hp : p ∈ keysA l) : p ∈ keysA (insertA l k v) := by
  induction l with
  | nil => simp [keysA] at hp
  | cons hd tl ih =>
    obtain ⟨k', v'⟩ := hd
    simp only [keysA, List.map_cons, List.mem_cons] at hp
    by_cases h : k' = k
    · subst h
      rcases hp with hp | hp
      · simp [insertA, keysA, hp]
      · simp [insertA, keysA, hp]
    · rcases hp with hp | hp
      · simp [insertA, h, keysA, hp]
      · simp only [insertA, h, if_false, keysA, List.map_cons, List.mem_cons]
        exact Or.inr (ih hp)

theorem mem_insertSet_self {α : Type} [DecidableEq α] (l : List α) (a : α) :
    a ∈ insertSet l a := by
  unfold insertSet
  split <;> simp [*]

theorem mem_insertSet_of_mem {α : Type} [DecidableEq α] {l : List α} {p : α}
    (a : α) (hp : p ∈ l) : p ∈ insertSet l a := by
  unfold insertSet
  split <;> simp [hp]

theorem mem_discard_of_ne {α : Type} [DecidableEq α] {l : List α} {p a : α}
    (hp : p ∈ l) (hne : p ≠ a) : p ∈ discardSet l a := by
  unfold discardSet
  simp [List.mem_filter, hp, hne]

theorem inAnyMore_applyMoreOp (st : MoreState) (op : Op) (p : Point)
    (h : InAnyMore st p) : InAnyMore (applyMoreOp st op) p := by
  cases op with
  | addKnown i t q =>
    simp only [applyMoreOp, MoreSpawns.add_known, InAnyMore] at h ⊢
    by_cases hpq : p = q
    · subst hpq
      exact Or.inl (mem_keysA_insertA_self st.known p none)
    · rcases h with h | h | h
      · exact Or.inl (mem_keysA_insertA_of_mem q none h)
      · exact Or.inr (Or.inl (mem_discard_of_ne h hpq))
      · exact Or.inr (Or.inr (mem_discard_of_ne h hpq))
  | addUnknown q =>
    simp only [applyMoreOp, MoreSpawns.add_unknown, InAnyMore] at h ⊢
    by_cases hpq : p = q
    · subst hpq
      exact Or.inr (Or.inl (mem_insertSet_self st.unknown p))
    · rcases h with h | h | h
      · exact Or.inl h
      · exact Or.inr (Or.inl (mem_insertSet_of_mem q h))
      · exact Or.inr (Or.inr (mem_discard_of_ne h hpq))

theorem inAnyMore_of_op (st : MoreState) (op : Op) :
    InAnyMore (applyMoreOp st op) op.point := by
  cases op with
  | addKnown i t q =>
    exact Or.inl (mem_keysA_insertA_self st.known q none)
  | addUnknown q =>
    exact Or.inr (Or.inl (mem_insertSet_self st.unknown q))

theorem inAnyMore_applyMore (ops : List Op) (st : MoreState) (p : Point)
    (h : InAnyMore st p) : InAnyMore (applyMore ops st) p := by
  induction ops generalizing st with
  | nil => exact h
  | cons op rest ih => exact ih (applyMoreOp st op) (inAnyMore_applyMoreOp st op p h)

theorem inAnyMore_of_mentioned (ops : List Op) (st : MoreState) (p : Point)
    (h : p ∈ ops.map Op.point) : InAnyMore (applyMore ops st) p := by
  induction ops generalizing st with
  | nil => simp at h
  | cons op rest ih =>
    simp only [List.map_cons, List.mem_cons] at h
    rcases h with h | h
    · subst h
      exact inAnyMore_applyMore rest (applyMoreOp st op) op.point (inAnyMore_of_op st op)
    · exact ih (applyMoreOp st op) h

theorem applyPlain_known_unchanged (ops : List Op) (st : BaseState) :
    (applyPlain ops st).known = st.known := by
  induction ops generalizing st with
  | nil => rfl
  | cons op rest ih =>
    have hstep : applyPlain (op :: rest) st = applyPlain rest (applyPlainOp st op) := rfl
    rw [hstep, ih]
    cases op <;> rfl

/-- C2 amended: starting from a freshly initialised registry, after any
finite sequence of `add_known`/`add_unknown` calls a point passed to at
least one call belongs, in the plain variant, to at most one of
{known, unknown} (`add_known` does not insert into `known`, so the point
may be in neither), and, in the extended variant, to at least one of
{known, unknown, cell_points} — but possibly to both `known` and `unknown`
at once, since `add_unknown` does not remove from `known`. -/
theorem C2_bucket_membership (dbh : Nat) (ops : List Op) (p : Point)
    (hp : p ∈ ops.map Op.point) :
    ¬ (p ∈ keysA (applyPlain ops (initBase dbh)).known ∧
        p ∈ (applyPlain ops (initBase dbh)).unknown) ∧
    InAnyMore (applyMore ops (initMore dbh)) p := by
  constructor
  · rintro ⟨hk, _⟩
    rw [applyPlain_known_unchanged] at hk
    simp [initBase, keysA] at hk
  · exact inAnyMore_of_mentioned ops (initMore dbh) p hp

theorem C2_bucket_membership_witness :
    ((5, 6) : Point) ∈ ([Op.addKnown 1 100 (5, 6), Op.addUnknown (7, 8)].map Op.point) ∧
    (¬ (((5, 6) : Point) ∈
          keysA (applyPlain [Op.addKnown 1 100 (5, 6), Op.addUnknown (7, 8)] (initBase 0)).known ∧
        ((5, 6) : Point) ∈ (applyPlain [Op.addKnown 1 100 (5, 6), Op.addUnknown (7, 8)] (initBase 0)).unknown) ∧
      InAnyMore (applyMore [Op.addKnown 1 100 (5, 6), Op.addUnknown (7, 8)] (initMore 0)) (5, 6)) :=
  ⟨by decide, C2_bucket_membership 0 [Op.addKnown 1 100 (5, 6), Op.addUnknown (7, 8)] (5, 6) (by decide)⟩

/-- One record yielded by the store query (a `db.Spawnpoint` row): point,
spawn identifier, nullable last-updated timestamp, optional elevation,
duration class in minutes, and raw despawn-second. -/
structure SpawnRecord where
  point : Point
  spawn_id : SpawnId
  updated : Option Nat
  alt : Option Int
  duration : Nat
  despawn_time : Nat
deriving DecidableEq, Repr

/-- The configuration `update` consults: whether a polygon boundary is
configured (`conf.BOUNDARIES`), the polygon containment test, the
last-migration marker, the coordinate rounding at the configured altitude
precision (modelled from the spec: `round_coords` lives in `monocle.utils`,
which is not under `src/`), and the mapping a bulk `get_all_altitudes`
call would return. -/
structure UpdateEnv where
  bound : Bool
  inBounds : Point → Bool
  last_migration : Nat
  roundFn : Point → Point
  bulk_altitudes : List (Point × Int)

/-- Processing of one store record inside `BaseSpawns.update`'s loop: skip
points outside the polygon boundary; when the altitude cache started out
empty, seed it from the record's elevation; classify records with a missing
or stale timestamp as unknown; otherwise compute the despawn-second (with
the half-hour shift when the duration is not 60) and record the raw
despawn-time under the spawn identifier and the computed value in the
pending known mapping, exactly as the source lines do. -/
def updStep (env : UpdateEnv) (alts : Bool)
    (acc : BaseState × List (Point × SpawnId × Nat)) (r : SpawnRecord) :
    BaseState × List (Point × SpawnId × Nat) :=
  if env.bound && !env.inBounds r.point then acc
  else
    let s :=
      if alts then
        match r.alt with
        | some a => { acc.1 with altitudes := insertA acc.1.altitudes (env.roundFn r.point) a }
        | none => acc.1
      else acc.1
    match r.updated with
    | none => ({ s with unknown := insertSet s.unknown r.point }, acc.2)
    | some u =>
      if u ≤ env.last_migration then
        ({ s with unknown := insertSet s.unknown r.point }, acc.2)
      else
        let spawn_time := if r.duration = 60 then r.despawn_time
          else (r.despawn_time + 1800) % 3600
        ({ s with despawn_times := insertA s.despawn_times r.spawn_id r.despawn_time },
         insertA acc.2 r.point (r.spawn_id, spawn_time))

/-- Insert one pending entry into a list kept ascending by despawn-second. -/
def insertBySeconds (e : Point × SpawnId × Nat) :
    List (Point × SpawnId × Nat) → List (Point × SpawnId × Nat)
  | [] => [e]
  | f :: fs => if f.2.2 ≤ e.2.2 then f :: insertBySeconds e fs else e :: f :: fs

/-- `sorted(known.items(), key=lambda k: k[1][1])`. -/
def sortBySeconds (l : List (Point × SpawnId × Nat)) : List (Point × SpawnId × Nat) :=
  l.foldr insertBySeconds []

/-- `BaseSpawns.update()`: fold the store records through the loop body,
publish the pending known mapping sorted ascending by despawn-second, and
bulk-seed the altitude cache if it is still empty afterwards. -/
def BaseSpawns.update (st : BaseState) (env : UpdateEnv)
    (records : List SpawnRecord) : BaseState :=
  let alts := st.altitudes.isEmpty
  let folded := records.foldl (updStep env alts) (st, [])
  let s := { folded.1 with
             known := (sortBySeconds folded.2).map
               (fun (e : Point × SpawnId × Nat) => (e.1, some e.2)) }
  if s.altitudes.isEmpty then { s with altitudes := env.bulk_altitudes } else s

/-- `BaseSpawns.after_last()`: compare the current second-of-hour against
the despawn-second of the last entry of the known ordered mapping; an empty
mapping (`StopIteration`) or a placeholder value (`TypeError` on `None[1]`)
yields `False`. -/
def after_last (st : BaseState) (now : Nat) : Bool :=
  match lastEntry st.known with
  | none => false
  | some (_, none) => false
  | some (_, some (_, seconds)) => decide (now % 3600 > seconds)

/-- The despawn-second of a known-mapping entry; placeholder entries carry
no pair and count as 0. -/
def keyOf (e : Point × Option (SpawnId × Nat)) : Nat :=
  match e.2 with
  | some v => v.2
  | none => 0

/-- The spec's ordering invariant on the known mapping: every entry carries
an (identifier, despawn-second) pair and the seconds are ascending. -/
def KnownSorted (l : List (Point × Option (SpawnId × Nat))) : Prop :=
  (∀ e ∈ l, e.2 ≠ none) ∧ l.Pairwise (fun a b => keyOf a ≤ keyOf b)

/-- The maximum stored despawn-second among the known entries. -/
def maxSecs (l : List (Point × Option (SpawnId × Nat))) : Nat :=
  l.foldl (fun acc e => max acc (keyOf e)) 0

theorem mem_insertBySeconds {e y : Point × SpawnId × Nat} :
    ∀ {l : List (Point × SpawnId × Nat)},
      y ∈ insertBySeconds e l ↔ y = e ∨ y ∈ l := by
  intro l
  induction l with
  | nil => simp [insertBySeconds]
  | cons f fs ih =>
    by_cases hc : f.2.2 ≤ e.2.2
    · simp only [insertBySeconds, if_pos hc, List.mem_cons, ih]
      tauto
    · simp only [insertBySeconds, if_neg hc, List.mem_cons]

theorem pairwise_insertBySeconds (e : Point × SpawnId × Nat)
    {l : List (Point × SpawnId × Nat)}
    (h : l.Pairwise (fun a b => a.2.2 ≤ b.2.2)) :
    (insertBySeconds e l).Pairwise (fun a b => a.2.2 ≤ b.2.2) := by
  induction l with
  | nil => simp [insertBySeconds]
  | cons f fs ih =>
    rw [List.pairwise_cons] at h
    obtain ⟨hf, hfs⟩ := h
    unfold insertBySeconds
    split
    · next hle =>
      rw [List.pairwise_cons]
      refine ⟨?_, ih hfs⟩
      intro y hy
      rcases mem_insertBySeconds.mp hy with rfl | hy
      · exact hle
      · exact hf y hy
    · next hgt =>
      have hle : e.2.2 ≤ f.2.2 := by omega
      rw [List.pairwise_cons]
      refine ⟨?_, List.pairwise_cons.mpr ⟨hf, hfs⟩⟩
      intro y hy
      rcases List.mem_cons.mp hy with rfl | hy
      · exact hle
      · exact le_trans hle (hf y hy)

theorem pairwise_sortBySeconds (l : List (Point × SpawnId × Nat)) :
    (sortBySeconds l).Pairwise (fun a b => a.2.2 ≤ b.2.2) := by
  induction l with
  | nil => simp [sortBySeconds]
  | cons e es ih => exact pairwise_insertBySeconds e ih

theorem update_known_eq (st : BaseState) (env : UpdateEnv) (records : List SpawnRecord) :
    (BaseSpawns.update st env records).known =
      (sortBySeconds (records.foldl (updStep env st.altitudes.isEmpty) (st, [])).2).map
        (fun (e : Point × SpawnId × Nat) => (e.1, some e.2)) := by
  simp only [BaseSpawns.update]
  split <;> rfl

theorem knownSorted_update (st : BaseState) (env : UpdateEnv)
    (records : List SpawnRecord) : KnownSorted (BaseSpawns.update st env records).known := by
  rw [update_known_eq]
  constructor
  · intro e he
    simp only [List.mem_map] at he
    obtain ⟨a, _, rfl⟩ := he
    simp
  · rw [List.pairwise_map]
    exact (pairwise_sortBySeconds _).imp (fun h => h)

theorem lastEntry_eq_none_iff {α : Type} (l : List α) : lastEntry l = none ↔ l = [] := by
  induction l with
  | nil => simp [lastEntry]
  | cons a t ih =>
    cases t with
    | nil => simp [lastEntry]
    | cons b t2 =>
      simp only [lastEntry, ih]
      simp

theorem mem_of_lastEntry {α : Type} {l : List α} {a : α} (h : lastEntry l = some a) :
    a ∈ l := by
  induction l with
  | nil => simp [lastEntry] at h
  | cons x t ih =>
    cases t with
    | nil =>
      simp only [lastEntry, Option.some.injEq] at h
      subst h
      exact List.mem_cons_self x []
    | cons b t2 =>
      have h2 : lastEntry (b :: t2) = some a := by simpa [lastEntry] using h
      exact List.mem_cons_of_mem x (ih h2)

theorem pairwise_le_lastEntry {l : List (Point × Option (SpawnId × Nat))}
    {last : Point × Option (SpawnId × Nat)}
    (hp : l.Pairwise (fun a b => keyOf a ≤ keyOf b))
    (hl : lastEntry l = some last) :
    ∀ e ∈ l, keyOf e ≤ keyOf last := by
  induction l with
  | nil => simp [lastEntry] at hl
  | cons x t ih =>
    rw [List.pairwise_cons] at hp
    obtain ⟨hx, ht⟩ := hp
    cases t with
    | nil =>
      simp only [lastEntry, Option.some.injEq] at hl
      subst hl
      intro e he
      rcases List.mem_cons.mp he with rfl | he
      · exact le_refl _
      · simp at he
    | cons b t2 =>
      have hl2 : lastEntry (b :: t2) = some last := by simpa [lastEntry] using hl
      intro e he
      rcases List.mem_cons.mp he with rfl | he
      · exact hx last (mem_of_lastEntry hl2)
      · exact ih ht hl2 e he

theorem foldl_max_le {l : List (Point × Option (SpawnId × Nat))} {a m : Nat}
    (ha : a ≤ m) (h : ∀ e ∈ l, keyOf e ≤ m) :
    l.foldl (fun acc e => max acc (keyOf e)) a ≤ m := by
  induction l generalizing a with
  | nil => exact ha
  | cons x t ih =>
    have hx := h x (by simp)
    have hax : max a (keyOf x) ≤ m := by omega
    exact ih hax (fun e he => h e (by simp [he]))

theorem le_foldl_max_init (l : List (Point × Option (SpawnId × Nat))) (a : Nat) :
    a ≤ l.foldl (fun acc e => max acc (keyOf e)) a := by
  induction l generalizing a with
  | nil => exact le_refl a
  | cons x t ih => exact le_trans (le_max_left a (keyOf x)) (ih (max a (keyOf x)))

theorem le_foldl_max_of_mem {l : List (Point × Option (SpawnId × Nat))}
    {e : Point × Option (SpawnId × Nat)} (he : e ∈ l) (a : Nat) :
    keyOf e ≤ l.foldl (fun acc x => max acc (keyOf x)) a := by
  induction l generalizing a with
  | nil => simp at he
  | cons x t ih =>
    rcases List.mem_cons.mp he with rfl | he
    · exact le_trans (le_max_right a (keyOf e)) (le_foldl_max_init t (max a (keyOf e)))
    · exact ih he (max a (keyOf x))

theorem maxSecs_le {l : List (Point × Option (SpawnId × Nat))} {m : Nat}
    (h : ∀ e ∈ l, keyOf e ≤ m) : maxSecs l ≤ m :=
  foldl_max_le (Nat.zero_le m) h

theorem le_maxSecs_of_mem {l : List (Point × Option (SpawnId × Nat))}
    {e : Point × Option (SpawnId × Nat)} (he : e ∈ l) : keyOf e ≤ maxSecs l :=
  le_foldl_max_of_mem he 0

/-- C5: when the known mapping satisfies the ordering invariant and is
nonempty, `after_last` returns `true` exactly when the current
second-of-hour exceeds the maximum stored despawn-second among the known
entries. -/
theorem C5_after_last_iff_max (st : BaseState) (now : Nat)
    (hs : KnownSorted st.known) (hne : st.known ≠ []) :
    (after_last st now = true ↔ now % 3600 > maxSecs st.known) := by
  obtain ⟨hall, hpair⟩ := hs
  cases hl : lastEntry st.known with
  | none => exact absurd ((lastEntry_eq_none_iff st.known).mp hl) hne
  | some last =>
    obtain ⟨pt, v⟩ := last
    cases v with
    | none => exact absurd rfl (hall (pt, none) (mem_of_lastEntry hl))
    | some pr =>
      obtain ⟨i, secs⟩ := pr
      have hmax : maxSecs st.known = secs := by
        apply le_antisymm
        · exact maxSecs_le (pairwise_le_lastEntry hpair hl)
        · exact le_maxSecs_of_mem (mem_of_lastEntry hl)
      unfold after_last
      rw [hl, hmax]
      simp

/-- A concrete sorted state with known despawn-seconds 100 and 2000, as in
the spec's worked scenario. -/
def stC5 : BaseState :=
  { known := [((1, 2), some (1, 100)), ((3, 4), some (2, 2000))],
    despawn_times := [(1, 100), (2, 2000)], unknown := [], altitudes := [],
    class_version := 2, db_hash := 0 }

theorem C5_after_last_iff_max_witness :
    KnownSorted stC5.known ∧ after_last stC5 2500 = true ∧ after_last stC5 50 = false := by
  have hs : KnownSorted stC5.known := ⟨by decide, by decide⟩
  have hne : stC5.known ≠ [] := by decide
  refine ⟨hs, (C5_after_last_iff_max stC5 2500 hs hne).mpr (by decide), ?_⟩
  have h := C5_after_last_iff_max stC5 50 hs hne
  cases hb : after_last stC5 50 with
  | false => rfl
  | true => exact absurd (h.mp hb) (by decide)

/-- The update environment for the C1 record: no boundary filter, identity
rounding, last-migration marker 1, empty bulk altitude result. -/
def envC1 : UpdateEnv :=
  { bound := false, inBounds := fun _ => true, last_migration := 1,
    roundFn := id, bulk_altitudes := [] }

/-- The C1 record: a half-hour-duration spawn (duration 30) with raw
despawn-second 200, updated after the migration marker. -/
def recC1 : SpawnRecord :=
  { point := (3, 4), spawn_id := 2, updated := some 5, alt := none,
    duration := 30, despawn_time := 200 }

/-- C1: reconciling a surviving half-hour record with raw despawn-second
200 computes the shifted value (200 + 1800) mod 3600 = 2000 and stores it
in the known coordinate mapping, but under the spawn identifier in
`despawn_times` the code stores the raw 200 — not the computed value the
claim says is stored in both places. -/
theorem C1_update_despawn_times_raw :
    lookupA (BaseSpawns.update (initBase 0) envC1 [recC1]).despawn_times 2 = some 200 ∧
    lookupA (BaseSpawns.update (initBase 0) envC1 [recC1]).known (3, 4) =
      some (some (2, 2000)) ∧
    ((200 : Nat) + 1800) % 3600 = 2000 ∧ (200 : Nat) ≠ 2000 :=
  ⟨by decide, by decide, by decide, by decide⟩

/-- A sorted extended-variant state with two known entries (seconds 100
and 2000). -/
def stC8 : MoreState :=
  { known := [((1, 2), some (1, 100)), ((3, 4), some (2, 2000))],
    despawn_times := [(1, 100), (2, 2000)], unknown := [], altitudes := [],
    class_version := 2, db_hash := 0, cell_points := [] }

/-- C8 counterexample: the claim says every subsequent operation preserves
the ascending ordering, including `add_known` in both variants; but
`MoreSpawns.add_known` appends a placeholder entry carrying no despawn
pair at the end of a sorted known mapping, so the mapping no longer
satisfies the ordering invariant and its last entry no longer carries the
maximum stored despawn-second. -/
theorem C8_more_add_known_breaks_sorted :
    KnownSorted stC8.known ∧
    ¬ KnownSorted (MoreSpawns.add_known stC8 3 50 (5, 6)).known ∧
    lastEntry (MoreSpawns.add_known stC8 3 50 (5, 6)).known = some ((5, 6), none) := by
  refine ⟨⟨by decide, by decide⟩, ?_, by decide⟩
  intro h
  exact absurd rfl (h.1 ((5, 6), none) (by decide))

/-- C8 amended: the known mapping is sorted ascending by despawn-second
immediately after `update`; the plain variant's `add_known`/`add_unknown`
and the extended variant's `add_unknown` leave the mapping untouched and
so preserve the invariant; and under the invariant the last entry carries
the maximum stored despawn-second.  The extended variant's `add_known` is
the exception: it appends a placeholder entry, breaking the invariant. -/
theorem C8_known_sorted_amended :
    (∀ (st : BaseState) (env : UpdateEnv) (records : List SpawnRecord),
      KnownSorted (BaseSpawns.update st env records).known) ∧
    (∀ (st : BaseState) (i : SpawnId) (t : Nat) (p : Point),
      (Spawns.add_known st i t p).known = st.known ∧
      (Spawns.add_unknown st p).known = st.known) ∧
    (∀ (st : MoreState) (p : Point),
      (MoreSpawns.add_unknown st p).known = st.known) ∧
    (∀ (l : List (Point × Option (SpawnId × Nat))) (last : Point × Option (SpawnId × Nat)),
      KnownSorted l → lastEntry l = some last → ∀ e ∈ l, keyOf e ≤ keyOf last) :=
  ⟨knownSorted_update,
   fun _ _ _ _ => ⟨rfl, rfl⟩,
   fun _ _ => rfl,
   fun _ _ hs hl e he => pairwise_le_lastEntry hs.2 hl e he⟩

theorem C8_known_sorted_amended_witness :
    KnownSorted (BaseSpawns.update (initBase 0) envC1 [recC1]).known ∧
    (Spawns.add_known (initBase 0) 1 2 (0, 0)).known = (initBase 0).known ∧
    (MoreSpawns.add_unknown (initMore 0) (0, 0)).known = (initMore 0).known ∧
    keyOf ((1, 2), some (1, 100)) ≤ keyOf ((3, 4), some (2, 2000)) :=
  ⟨C8_known_sorted_amended.1 (initBase 0) envC1 [recC1],
   (C8_known_sorted_amended.2.1 (initBase 0) 1 2 (0, 0)).1,
   C8_known_sorted_amended.2.2.1 (initMore 0) (0, 0),
   C8_known_sorted_amended.2.2.2 stC8.known ((3, 4), some (2, 2000))
     ⟨by decide, by decide⟩ (by decide) ((1, 2), some (1, 100)) (by decide)⟩
